import Mathlib

/-!
Shallow embedding of the copy-trading execution engine of
`polymarket-copy-trading-bot-rust`, together with theorems settling the
frozen claims about its specification.

Modelling conventions:
* Rust `f64` values are modelled as `ℚ` (exact rational arithmetic; the
  claims under study are about control flow and ordering of clamps, not
  about floating-point rounding).
* The human-readable `reasoning` strings built by the Rust code are not
  modelled; the boolean audit flags are.
* Asynchronous I/O (HTTP fetches, websocket reads, order submission) is
  modelled by passing the sequence of observed responses explicitly.
-/

/-- `CopyStrategy` from `src/config/copy_strategy.rs` (PERCENTAGE, FIXED,
ADAPTIVE). -/
inductive CopyStrategy where
  | Percentage
  | Fixed
  | Adaptive
deriving DecidableEq

/-- `MultiplierTier` from `src/config/copy_strategy.rs`: a notional range
with optional (infinite when `none`) upper bound, mapped to a multiplier. -/
structure MultiplierTier where
  min : ℚ
  max : Option ℚ
  multiplier : ℚ
deriving DecidableEq

/-- `CopyStrategyConfig` from `src/config/copy_strategy.rs`. -/
structure CopyStrategyConfig where
  strategy : CopyStrategy
  copy_size : ℚ
  adaptive_min_percent : Option ℚ
  adaptive_max_percent : Option ℚ
  adaptive_threshold : Option ℚ
  tiered_multipliers : Option (List MultiplierTier)
  trade_multiplier : Option ℚ
  max_order_size_usd : ℚ
  min_order_size_usd : ℚ
  max_position_size_usd : Option ℚ
  max_daily_volume_usd : Option ℚ
deriving DecidableEq

/-- `OrderSizeCalculation` from `src/config/copy_strategy.rs`, without the
`reasoning` string (not modelled). -/
structure OrderSizeCalculation where
  trader_order_size : ℚ
  base_amount : ℚ
  final_amount : ℚ
  strategy : CopyStrategy
  capped_by_max : Bool
  reduced_by_balance : Bool
  below_minimum : Bool
deriving DecidableEq

/-- `lerp` from `src/config/copy_strategy.rs`: linear interpolation with the
factor clamped as `t.max(0.0).min(1.0)`. -/
def lerp (a b t : ℚ) : ℚ :=
  let clamped_t := min (max t 0) 1
  a + (b - a) * clamped_t

/-- `calculate_adaptive_percent` from `src/config/copy_strategy.rs`.
Missing adaptive bounds default to `copy_size`; a missing threshold
defaults to 500. -/
def calculate_adaptive_percent (config : CopyStrategyConfig)
    (trader_order_size : ℚ) : ℚ :=
  let min_percent := config.adaptive_min_percent.getD config.copy_size
  let max_percent := config.adaptive_max_percent.getD config.copy_size
  let threshold := config.adaptive_threshold.getD 500
  if threshold ≤ trader_order_size then
    let factor := min (trader_order_size / threshold - 1) 1
    lerp config.copy_size min_percent factor
  else
    let factor := trader_order_size / threshold
    lerp max_percent config.copy_size factor

/-- Linear scan of the tier list, as in the `for tier in tiered_multipliers`
loop of `get_trade_multiplier`: first tier whose half-open (or unbounded)
range contains the notional. -/
def findTierMultiplier (tiers : List MultiplierTier) (trader_order_size : ℚ) :
    Option ℚ :=
  match tiers with
  | [] => none
  | t :: rest =>
    if t.min ≤ trader_order_size then
      match t.max with
      | none => some t.multiplier
      | some m =>
        if trader_order_size < m then some t.multiplier
        else findTierMultiplier rest trader_order_size
    else findTierMultiplier rest trader_order_size

/-- `get_trade_multiplier` from `src/config/copy_strategy.rs`: tiered
multipliers take precedence (falling back to the last tier's multiplier when
no tier matches), then the single `trade_multiplier`, then 1. -/
def get_trade_multiplier (config : CopyStrategyConfig)
    (trader_order_size : ℚ) : ℚ :=
  match config.tiered_multipliers with
  | some tiers =>
    if tiers.isEmpty then config.trade_multiplier.getD 1
    else
      match findTierMultiplier tiers trader_order_size with
      | some m => m
      | none =>
        match tiers.getLast? with
        | some last_tier => last_tier.multiplier
        | none => config.trade_multiplier.getD 1
  | none => config.trade_multiplier.getD 1

/-- `calculate_order_size` from `src/config/copy_strategy.rs`: base amount by
strategy, multiplier, then in order the max-order cap, the position cap
(forcing an intermediate 0 when the allowed remainder is below the minimum),
the 99%-of-balance reduction, and finally the pin up to
`min_order_size_usd`. -/
def calculate_order_size (config : CopyStrategyConfig)
    (trader_order_size available_balance current_position_size : ℚ) :
    OrderSizeCalculation :=
  let base_amount :=
    match config.strategy with
    | .Percentage => trader_order_size * (config.copy_size / 100)
    | .Fixed => config.copy_size
    | .Adaptive =>
      trader_order_size * (calculate_adaptive_percent config trader_order_size / 100)
  let multiplier := get_trade_multiplier config trader_order_size
  let amount0 := base_amount * multiplier
  let capped_by_max := decide (config.max_order_size_usd < amount0)
  let amount1 :=
    if config.max_order_size_usd < amount0 then config.max_order_size_usd
    else amount0
  let amount2 :=
    match config.max_position_size_usd with
    | some max_position_size =>
      if max_position_size < current_position_size + amount1 then
        let allowed_amount := max (max_position_size - current_position_size) 0
        if allowed_amount < config.min_order_size_usd then 0 else allowed_amount
      else amount1
    | none => amount1
  let max_affordable := available_balance * (99 / 100)
  let reduced_by_balance := decide (max_affordable < amount2)
  let amount3 := if max_affordable < amount2 then max_affordable else amount2
  let below_minimum := decide (amount3 < config.min_order_size_usd)
  let final_amount :=
    if amount3 < config.min_order_size_usd then config.min_order_size_usd
    else amount3
  { trader_order_size := trader_order_size
    base_amount := base_amount
    final_amount := final_amount
    strategy := config.strategy
    capped_by_max := capped_by_max
    reduced_by_balance := reduced_by_balance
    below_minimum := below_minimum }

/-- `MIN_ORDER_SIZE_TOKENS` from `src/utils/post_order.rs`: fixed minimum
order size in tokens for SELL/MERGE orders. -/
def MIN_ORDER_SIZE_TOKENS : ℚ := 1

/-- The fields of `UserPosition` (`src/interfaces/mod.rs`) that the
execution engine reads: token size and average entry price. -/
structure UserPosition where
  size : ℚ
  avg_price : ℚ
deriving DecidableEq

/-- The fields of `UserActivity` (`src/interfaces/mod.rs`) that the
execution engine reads: side, asset id, token size and notional size. -/
structure UserActivity where
  side : String
  asset : String
  size : ℚ
  usdc_size : ℚ
deriving DecidableEq

/-- One price level of an order-book side, after the string fields of the
CLOB `/book` response have been parsed (`price`/`size` pairs). -/
structure BookLevel where
  price : ℚ
  size : ℚ
deriving DecidableEq

/-- Best ask selection from `execute_buy_strategy`: Rust
`Iterator::min_by` on the price, which keeps the first element on ties. -/
def minByPrice (levels : List BookLevel) : Option BookLevel :=
  levels.foldl
    (fun acc l =>
      match acc with
      | none => some l
      | some b => if l.price < b.price then some l else some b)
    none

/-- Best bid selection from `execute_sell_strategy` and
`execute_merge_strategy`: Rust `Iterator::max_by` on the price, which keeps
the last element on ties. -/
def maxByPrice (levels : List BookLevel) : Option BookLevel :=
  levels.foldl
    (fun acc l =>
      match acc with
      | none => some l
      | some b => if b.price ≤ l.price then some l else some b)
    none

/-- Mutable state of the BUY execution loop in `execute_buy_strategy`:
remaining notional, remaining balance, consecutive-failure counter, plus the
submitted order notionals and cumulative bought tokens. -/
structure BuyState where
  remaining : ℚ
  available_balance : ℚ
  retry : ℕ
  orders : List ℚ
  total_bought_tokens : ℚ
deriving DecidableEq

/-- Outcome of one loop iteration: continue with the new state, or leave the
loop (a `break` or the loop condition turning false next time). -/
inductive StepOut (σ : Type) where
  | next (s : σ)
  | stop (s : σ)
deriving DecidableEq

/-- The submitted-order list carried by a buy-loop step outcome. -/
def buyOrdersOf : StepOut BuyState → List ℚ
  | .next s => s.orders
  | .stop s => s.orders

/-- One iteration of the BUY loop body of `execute_buy_strategy`
(`src/utils/post_order.rs`), given the freshly fetched (parsed) ask ladder:
empty/no-valid-asks break, the `remaining < min_order_size_usd` break, the
order size `max (min (min remaining (best_size*best_price))
max_order_size_usd) min_order_size_usd`, the dead below-minimum break, the
balance check, then the preview-mode submission that always succeeds. -/
def buyStep (config : CopyStrategyConfig) (asks : List BookLevel)
    (s : BuyState) : StepOut BuyState :=
  match minByPrice asks with
  | none => .stop s
  | some best =>
    if s.remaining < config.min_order_size_usd then .stop s
    else
      let max_order_size_from_orderbook := best.size * best.price
      let max_order_size :=
        min (min s.remaining max_order_size_from_orderbook)
          config.max_order_size_usd
      let order_size := max max_order_size config.min_order_size_usd
      if order_size < config.min_order_size_usd then .stop s
      else if s.available_balance < order_size then .stop s
      else
        .next
          { remaining := s.remaining - order_size
            available_balance := s.available_balance - order_size
            retry := 0
            orders := s.orders ++ [order_size]
            total_bought_tokens := s.total_bought_tokens + order_size / best.price }

/-- The `while remaining > 0.0 && retry < env.retry_limit` BUY loop, driven
by the successive order-book snapshots the loop fetches (one list of parsed
ask levels per iteration). -/
def runBuyLoop (config : CopyStrategyConfig) (retry_limit : ℕ)
    (books : List (List BookLevel)) (s : BuyState) : BuyState :=
  match books with
  | [] => s
  | asks :: rest =>
    if 0 < s.remaining ∧ s.retry < retry_limit then
      match buyStep config asks s with
      | .next s' => runBuyLoop config retry_limit rest s'
      | .stop s' => s'
    else s

/-- `execute_buy_strategy` entry (`src/utils/post_order.rs`): position value
from the optional own position, `calculate_order_size`, the
`final_amount == 0.0` skip, then the BUY loop. `none` models the skip. -/
def execute_buy_strategy (config : CopyStrategyConfig) (retry_limit : ℕ)
    (trade : UserActivity) (my_position : Option UserPosition)
    (my_balance : ℚ) (books : List (List BookLevel)) : Option BuyState :=
  let current_position_value :=
    match my_position with
    | some p => p.size * p.avg_price
    | none => 0
  let order_calc :=
    calculate_order_size config trade.usdc_size my_balance
      current_position_value
  if order_calc.final_amount = 0 then none
  else
    some (runBuyLoop config retry_limit books
      { remaining := order_calc.final_amount
        available_balance := my_balance
        retry := 0
        orders := []
        total_bought_tokens := 0 })

/-- Mutable state of the SELL/MERGE execution loops: remaining token size,
consecutive-failure counter, and the submitted fill sizes. -/
structure SellState where
  remaining : ℚ
  retry : ℕ
  fills : List ℚ
deriving DecidableEq

/-- The submitted-fill list carried by a sell-loop step outcome. -/
def sellFillsOf : StepOut SellState → List ℚ
  | .next s => s.fills
  | .stop s => s.fills

/-- One iteration of the SELL loop body of `execute_sell_strategy`: best bid
by maximum price, the `remaining < MIN_ORDER_SIZE_TOKENS` break, the fill
`min remaining best_size`, the final below-minimum break, then the
preview-mode submission. -/
def sellStep (bids : List BookLevel) (s : SellState) : StepOut SellState :=
  match maxByPrice bids with
  | none => .stop s
  | some best =>
    if s.remaining < MIN_ORDER_SIZE_TOKENS then .stop s
    else
      let sell_amount := min s.remaining best.size
      if sell_amount < MIN_ORDER_SIZE_TOKENS then .stop s
      else
        .next
          { remaining := s.remaining - sell_amount
            retry := 0
            fills := s.fills ++ [sell_amount] }

/-- The `while remaining > 0.0 && retry < env.retry_limit` SELL loop. -/
def runSellLoop (retry_limit : ℕ) (books : List (List BookLevel))
    (s : SellState) : SellState :=
  match books with
  | [] => s
  | bids :: rest =>
    if 0 < s.remaining ∧ s.retry < retry_limit then
      match sellStep bids s with
      | .next s' => runSellLoop retry_limit rest s'
      | .stop s' => s'
    else s

/-- One iteration of the MERGE loop body of `execute_merge_strategy`: like
the SELL loop body but without the extra `remaining < MIN_ORDER_SIZE_TOKENS`
pre-check. -/
def mergeStep (bids : List BookLevel) (s : SellState) : StepOut SellState :=
  match maxByPrice bids with
  | none => .stop s
  | some best =>
    let sell_amount := min s.remaining best.size
    if sell_amount < MIN_ORDER_SIZE_TOKENS then .stop s
    else
      .next
        { remaining := s.remaining - sell_amount
          retry := 0
          fills := s.fills ++ [sell_amount] }

/-- The MERGE execution loop of `execute_merge_strategy`. -/
def runMergeLoop (retry_limit : ℕ) (books : List (List BookLevel))
    (s : SellState) : SellState :=
  match books with
  | [] => s
  | bids :: rest =>
    if 0 < s.remaining ∧ s.retry < retry_limit then
      match mergeStep bids s with
      | .next s' => runMergeLoop retry_limit rest s'
      | .stop s' => s'
    else s

/-- The pre-loop target computation of `execute_sell_strategy`
(`src/utils/post_order.rs` lines 357-439): skip without a position; sell
the whole own position when the tracked trader closed theirs; otherwise the
proportional size `my_size * (trade_size / (user_size + trade_size))` times
`get_trade_multiplier`; then the below-minimum skip and the cap at the own
position size. `none` models "skipped, loop never entered". -/
def sellTarget (config : CopyStrategyConfig)
    (my_position : Option UserPosition) (user_position : Option UserPosition)
    (trade : UserActivity) : Option ℚ :=
  match my_position with
  | none => none
  | some my_pos =>
    let remaining :=
      match user_position with
      | none => my_pos.size
      | some user_pos =>
        let trader_sell_percent := trade.size / (user_pos.size + trade.size)
        let base_sell_size := my_pos.size * trader_sell_percent
        let multiplier := get_trade_multiplier config trade.usdc_size
        base_sell_size * multiplier
    if remaining < MIN_ORDER_SIZE_TOKENS then none
    else if my_pos.size < remaining then some my_pos.size
    else some remaining

/-- The pre-loop target computation of `execute_merge_strategy`
(`src/utils/post_order.rs` lines 136-169): skip without a position or an
empty asset id, skip below the minimum, otherwise sell the full own
position size. -/
def mergeTarget (trade : UserActivity) (my_position : Option UserPosition) :
    Option ℚ :=
  match my_position with
  | none => none
  | some my_pos =>
    if trade.asset = "" then none
    else if my_pos.size < MIN_ORDER_SIZE_TOKENS then none
    else some my_pos.size

/-- The condition dispatched by `execute_trade_directly`
(`src/services/trade_executor.rs` line 112): `"buy"` for side `"BUY"`,
otherwise `"sell"`; the `"merge"` condition of `post_order` is never
produced. -/
def postOrderCondition (trade : UserActivity) : String :=
  if trade.side = "BUY" then "buy" else "sell"

/-- Rust `str::split(sep)` on a character list: `"a,b"` gives two groups,
a leading/trailing separator yields an empty group, the empty string yields
one empty group. -/
def splitOnChar (sep : Char) : List Char → List (List Char)
  | [] => [[]]
  | c :: rest =>
    if c = sep then [] :: splitOnChar sep rest
    else
      match splitOnChar sep rest with
      | [] => [[c]]
      | g :: gs => (c :: g) :: gs

/-- Rust `str::trim` on a character list. -/
def trimChars (cs : List Char) : List Char :=
  ((cs.dropWhile Char.isWhitespace).reverse.dropWhile Char.isWhitespace).reverse

/-- Value of a digit list, most significant first. -/
def natOfDigits (cs : List Char) : ℕ :=
  cs.foldl (fun a c => 10 * a + (c.toNat - 48)) 0

/-- Model of Rust `str::parse::<f64>` on the plain decimal numerals the tier
syntax uses: optional sign, integer digits, optional fraction digits, at
least one digit overall (exponents and inf/nan spellings are not needed by
the tier grammar and are not modelled). -/
def parseDecimal (cs : List Char) : Option ℚ :=
  let signed :=
    match cs with
    | c :: r =>
      if c = '-' then (true, r) else if c = '+' then (false, r) else (false, cs)
    | [] => (false, ([] : List Char))
  let neg := signed.1
  let rest := signed.2
  let int_part := rest.takeWhile (fun c => c ≠ '.')
  let dot_part := rest.dropWhile (fun c => c ≠ '.')
  match dot_part with
  | [] =>
    if int_part.all Char.isDigit && !int_part.isEmpty then
      some (if neg then -(natOfDigits int_part : ℚ) else (natOfDigits int_part : ℚ))
    else none
  | _ :: frac =>
    if frac.contains '.' then none
    else if int_part.all Char.isDigit && frac.all Char.isDigit &&
        (!int_part.isEmpty || !frac.isEmpty) then
      let v : ℚ :=
        (natOfDigits int_part : ℚ) + (natOfDigits frac : ℚ) / ((10 : ℚ) ^ frac.length)
      some (if neg then -v else v)
    else none

/-- One `tier_def` of the `for tier_def in tier_defs` loop of
`parse_tiered_multipliers` (`src/config/copy_strategy.rs`): split on a colon
into exactly range and multiplier, parse and sign-check the multiplier, then
either an unbounded `min+` range or a bounded `min-max` range with
`max > min` required. -/
def parseTierDef (tier_def : List Char) : Except String MultiplierTier :=
  match splitOnChar ':' tier_def with
  | [range_raw, mult_raw] =>
    let range := trimChars range_raw
    match parseDecimal (trimChars mult_raw) with
    | none => .error "Invalid multiplier in tier"
    | some multiplier =>
      if multiplier < 0 then .error "Invalid multiplier in tier: must be >= 0"
      else if range.getLast? = some '+' then
        match parseDecimal range.dropLast with
        | none => .error "Invalid minimum value in tier"
        | some mn =>
          if mn < 0 then .error "Invalid minimum value in tier: must be >= 0"
          else .ok { min := mn, max := none, multiplier := multiplier }
      else if range.contains '-' then
        let min_str := range.takeWhile (fun c => c ≠ '-')
        let max_str := (range.dropWhile (fun c => c ≠ '-')).tail
        match parseDecimal min_str with
        | none => .error "Invalid minimum value in tier"
        | some mn =>
          match parseDecimal max_str with
          | none => .error "Invalid maximum value in tier"
          | some mx =>
            if mn < 0 then .error "Invalid minimum value in tier: must be >= 0"
            else if mx ≤ mn then .error "Invalid maximum value in tier: must be > min"
            else .ok { min := mn, max := some mx, multiplier := multiplier }
      else .error "Invalid range format in tier. Use min-max or min+"
  | _ => .error "Invalid tier format. Expected min-max:multiplier or min+:multiplier"

/-- Parse each tier definition in order, propagating the first error, as the
Rust loop does. -/
def parseTierDefs : List (List Char) → Except String (List MultiplierTier)
  | [] => .ok []
  | d :: rest => do
    let t ← parseTierDef d
    let ts ← parseTierDefs rest
    .ok (t :: ts)

/-- Insert a tier after every already-placed tier whose `min` is not
greater, so that inserting the parsed tiers left to right reproduces the
stable `tiers.sort_by(min)` of the Rust code. -/
def insertTierByMin (t : MultiplierTier) : List MultiplierTier → List MultiplierTier
  | [] => [t]
  | a :: rest =>
    if t.min < a.min then t :: a :: rest else a :: insertTierByMin t rest

/-- The stable `sort_by` on tier minima used by `parse_tiered_multipliers`
(Rust's slice sort is stable; a stable sort by a total key is unique, so the
insertion sort below computes it). -/
def sortTiersByMin (tiers : List MultiplierTier) : List MultiplierTier :=
  tiers.foldl (fun acc t => insertTierByMin t acc) []

/-- The post-sort validation loop of `parse_tiered_multipliers`: for every
adjacent pair, a non-last unbounded tier is rejected, and an overlap
(`current.max > next.min`) is rejected. Gaps pass through. -/
def checkTierSequence : List MultiplierTier → Except String Unit
  | a :: b :: rest =>
    match a.max with
    | none => .error "Tier with infinite upper bound must be last"
    | some amax =>
      if b.min < amax then .error "Overlapping tiers"
      else checkTierSequence (b :: rest)
  | _ => .ok ()

/-- `parse_tiered_multipliers` from `src/config/copy_strategy.rs`: empty
input gives no tiers; otherwise split on commas, trim, drop empty
definitions, parse each, stably sort by `min`, then run the adjacent-pair
validation (whose `0..tiers.len() - 1` range underflows and panics when
every definition was filtered out, modelled as a distinguished error). -/
def parse_tiered_multipliers (tiers_str : String) :
    Except String (List MultiplierTier) :=
  if (trimChars tiers_str.data).isEmpty then .ok []
  else
    let tier_defs :=
      ((splitOnChar ',' tiers_str.data).map trimChars).filter
        (fun d => !d.isEmpty)
    match parseTierDefs tier_defs with
    | .error e => .error e
    | .ok tiers =>
      let sorted := sortTiersByMin tiers
      if sorted.isEmpty then .error "panic: attempt to subtract with overflow"
      else
        match checkTierSequence sorted with
        | .error e => .error e
        | .ok _ => .ok sorted

/-- `MAX_RECONNECT_ATTEMPTS` from `src/services/trade_monitor.rs`. -/
def MAX_RECONNECT_ATTEMPTS : ℕ := 10

/-- `RECONNECT_DELAY_SECS` from `src/services/trade_monitor.rs`. -/
def RECONNECT_DELAY_SECS : ℕ := 5

/-- What one turn of the reconnect loop in `start_trade_monitor` decides. -/
inductive ReconnectOutcome where
  | connected (reconnect_attempts : ℕ)
  | waitRetry (reconnect_attempts delay_secs : ℕ)
  | fatal
deriving DecidableEq

/-- One iteration of the reconnect loop of `start_trade_monitor`
(`src/services/trade_monitor.rs` lines 43-69): a successful connection
resets the counter to 0; a failure increments it, returns the fatal error
once it reaches `MAX_RECONNECT_ATTEMPTS`, and otherwise waits
`RECONNECT_DELAY_SECS * min attempts 5` seconds before retrying. -/
def reconnectStep (reconnect_attempts : ℕ) (connect_ok : Bool) :
    ReconnectOutcome :=
  if connect_ok then .connected 0
  else
    let attempts := reconnect_attempts + 1
    if MAX_RECONNECT_ATTEMPTS ≤ attempts then .fatal
    else .waitRetry attempts (RECONNECT_DELAY_SECS * min attempts 5)

/-- Outcome of one HTTP attempt inside `fetch_data`
(`src/utils/fetch_data.rs`): a decoded 2xx response, a 2xx response whose
JSON decoding fails (the `?` returns the error), a non-success status, a
reqwest error classified as a network error, or any other reqwest error. -/
inductive HttpAttemptOutcome where
  | success
  | successBadJson
  | httpError
  | networkError
  | otherError
deriving DecidableEq

/-- Result of `fetch_data` as far as the claims need it. -/
inductive FetchResult where
  | ok
  | err
deriving DecidableEq

/-- The `for attempt in 1..=retries` loop body of `fetch_data`: success
returns, a non-success status or network error retries while
`attempt < retries` and otherwise returns an error, any other error returns
immediately. An empty attempt list falling through models reaching the
`unreachable!()` after the loop. -/
def runFetchAttempts (retries : ℕ) (responses : ℕ → HttpAttemptOutcome) :
    List ℕ → Option FetchResult
  | [] => none
  | attempt :: rest =>
    match responses attempt with
    | .success => some .ok
    | .successBadJson => some .err
    | .httpError =>
      if attempt < retries then runFetchAttempts retries responses rest
      else some .err
    | .networkError =>
      if attempt < retries then runFetchAttempts retries responses rest
      else some .err
    | .otherError => some .err

/-- `fetch_data` from `src/utils/fetch_data.rs`, driven by the outcome of
each attempt; `none` models falling through to `unreachable!()`. -/
def fetch_data (retries : ℕ) (responses : ℕ → HttpAttemptOutcome) :
    Option FetchResult :=
  runFetchAttempts retries responses (List.range' 1 retries)

/-- The `NETWORK_RETRY_LIMIT` bounds check of `validate_numeric_config`
(`src/config/env.rs` lines 130-136): startup fails unless
`1 ≤ n ∧ n ≤ 10`. -/
def validNetworkRetryLimit (n : ℕ) : Bool :=
  decide (1 ≤ n) && decide (n ≤ 10)

instance {ε α : Type} [DecidableEq ε] [DecidableEq α] :
    DecidableEq (Except ε α) := fun x y =>
  match x, y with
  | .ok a, .ok b =>
    if h : a = b then .isTrue (congrArg Except.ok h)
    else .isFalse (fun hc => h (Except.ok.inj hc))
  | .error a, .error b =>
    if h : a = b then .isTrue (congrArg Except.error h)
    else .isFalse (fun hc => h (Except.error.inj hc))
  | .ok _, .error _ => .isFalse (fun hc => Except.noConfusion hc)
  | .error _, .ok _ => .isFalse (fun hc => Except.noConfusion hc)

/-- A plain PERCENTAGE configuration (10% copy, 1-100 USD order bounds, no
multipliers, no caps) used as concrete input in several theorems. -/
def cfgPct : CopyStrategyConfig :=
  { strategy := .Percentage, copy_size := 10, adaptive_min_percent := none,
    adaptive_max_percent := none, adaptive_threshold := none,
    tiered_multipliers := none, trade_multiplier := none,
    max_order_size_usd := 100, min_order_size_usd := 1,
    max_position_size_usd := none, max_daily_volume_usd := none }

/-- `cfgPct` with a 50 USD position cap. -/
def cfgPctCap : CopyStrategyConfig :=
  { cfgPct with max_position_size_usd := some 50 }

/-- An ADAPTIVE configuration whose `copy_size` (1) is below its
`adaptive_min_percent` (5): valid per `validate_copy_strategy_config`
(min 5 ≤ max 10), threshold 100. -/
def cfgAdaptiveLowCopy : CopyStrategyConfig :=
  { strategy := .Adaptive, copy_size := 1, adaptive_min_percent := some 5,
    adaptive_max_percent := some 10, adaptive_threshold := some 100,
    tiered_multipliers := none, trade_multiplier := none,
    max_order_size_usd := 100, min_order_size_usd := 1,
    max_position_size_usd := none, max_daily_volume_usd := none }

/-- An ADAPTIVE configuration with `adaptive_min_percent ≤ copy_size`
(5 ≤ 10 ≤ 15), threshold 100. -/
def cfgAdaptiveStd : CopyStrategyConfig :=
  { strategy := .Adaptive, copy_size := 10, adaptive_min_percent := some 5,
    adaptive_max_percent := some 15, adaptive_threshold := some 100,
    tiered_multipliers := none, trade_multiplier := none,
    max_order_size_usd := 100, min_order_size_usd := 1,
    max_position_size_usd := none, max_daily_volume_usd := none }

/-- The state carried by a buy-loop step outcome. -/
def buyStateOf : StepOut BuyState → BuyState
  | .next s => s
  | .stop s => s

/-- The state carried by a sell/merge-loop step outcome. -/
def sellStateOf : StepOut SellState → SellState
  | .next s => s
  | .stop s => s

/-- Invariant of the BUY execution loop: remaining notional is nonnegative,
remaining plus everything already submitted equals the original target, and
every submitted order is at least `min_order_size_usd`. -/
def BuyInv (config : CopyStrategyConfig) (target : ℚ) (s : BuyState) : Prop :=
  0 ≤ s.remaining ∧ s.remaining + s.orders.sum = target ∧
    ∀ o ∈ s.orders, config.min_order_size_usd ≤ o

/-- Invariant of the SELL/MERGE execution loops: remaining token size is
nonnegative, remaining plus everything already filled equals the original
target, and every fill is at least `MIN_ORDER_SIZE_TOKENS`. -/
def SellInv (target : ℚ) (s : SellState) : Prop :=
  0 ≤ s.remaining ∧ s.remaining + s.fills.sum = target ∧
    ∀ f ∈ s.fills, MIN_ORDER_SIZE_TOKENS ≤ f

/-- The final below-minimum pin of `calculate_order_size`: whatever amount
reaches the last step, the result is at least `m`. -/
theorem le_min_pin (m a : ℚ) : m ≤ if a < m then m else a := by
  split_ifs with h
  · exact le_rfl
  · exact le_of_not_lt h

/-- C9: for every input, `calculate_order_size` returns
`final_amount ≥ min_order_size_usd` — the below-minimum pin is the last
clamp applied, so any amount previously reduced (including to 0 by the
position cap or by a zero balance) is raised to `min_order_size_usd`, and
when `min_order_size_usd > 0` the function never returns 0. -/
theorem C9_min_pin_is_last_clamp (config : CopyStrategyConfig)
    (trader_order_size available_balance current_position_size : ℚ) :
    config.min_order_size_usd ≤
      (calculate_order_size config trader_order_size available_balance
        current_position_size).final_amount ∧
    (0 < config.min_order_size_usd →
      (calculate_order_size config trader_order_size available_balance
        current_position_size).final_amount ≠ 0) := by
  have hle : config.min_order_size_usd ≤
      (calculate_order_size config trader_order_size available_balance
        current_position_size).final_amount := le_min_pin _ _
  exact ⟨hle, fun h0 => ne_of_gt (lt_of_lt_of_le h0 hle)⟩

/-- C9 witness: with `cfgPct` (minimum 1), an input whose position cap and
balance are irrelevant yields a nonzero final amount. -/
theorem C9_witness :
    (calculate_order_size cfgPct 100 1000 0).final_amount ≠ 0 :=
  (C9_min_pin_is_last_clamp cfgPct 100 1000 0).2 (by norm_num [cfgPct])

/-- C1 counterexample: with a 50 USD position cap already filled
(`current_position_size = 50`, allowed remainder `0 < min_order_size_usd`),
`calculate_order_size` does not return 0 — the later minimum pin raises the
position-cap 0 back to `min_order_size_usd = 1`. -/
theorem C1_counterexample :
    max ((50 : ℚ) - 50) 0 < cfgPctCap.min_order_size_usd ∧
    (calculate_order_size cfgPctCap 100 1000 50).final_amount = 1 ∧
    (calculate_order_size cfgPctCap 100 1000 50).final_amount ≠ 0 := by
  refine ⟨by norm_num [cfgPctCap, cfgPct], ?_, ?_⟩ <;>
    norm_num [calculate_order_size, get_trade_multiplier, cfgPctCap, cfgPct]

/-- C1 amended: when a position cap is configured and the allowed remainder
`max (cap - current) 0` is below a positive `min_order_size_usd`, the
position-cap step sets the intermediate amount to 0, but the final
below-minimum pin raises it again, so `calculate_order_size` returns
`min_order_size_usd` (never 0) in that situation; the caller of the sizing
engine does treat `final_amount == 0` as the only do-not-trade signal
(`execute_buy_strategy` skips exactly when the computed final amount is
0). -/
theorem C1_amended_min_pin_overrides_position_skip :
    (∀ (config : CopyStrategyConfig) (t b p mp : ℚ),
      config.max_position_size_usd = some mp →
      max (mp - p) 0 < config.min_order_size_usd →
      0 < config.min_order_size_usd →
      (calculate_order_size config t b p).final_amount =
        config.min_order_size_usd ∧
      (calculate_order_size config t b p).final_amount ≠ 0) ∧
    (∀ (config : CopyStrategyConfig) (retry_limit : ℕ) (trade : UserActivity)
      (my_position : Option UserPosition) (my_balance : ℚ)
      (books : List (List BookLevel)),
      execute_buy_strategy config retry_limit trade my_position my_balance
          books = none ↔
        (calculate_order_size config trade.usdc_size my_balance
          (match my_position with
           | some p => p.size * p.avg_price
           | none => 0)).final_amount = 0) := by
  constructor
  · intro config t b p mp hmp hrem hminpos
    have hup : mp - p ≤ max (mp - p) 0 := le_max_left _ _
    have hzero : (0 : ℚ) ≤ max (mp - p) 0 := le_max_right _ _
    have hfin : (calculate_order_size config t b p).final_amount =
        config.min_order_size_usd := by
      simp only [calculate_order_size, hmp]
      split_ifs <;> linarith
    exact ⟨hfin, by rw [hfin]; exact ne_of_gt hminpos⟩
  · intro config retry_limit trade my_position my_balance books
    simp only [execute_buy_strategy]
    split_ifs with h
    · simpa using h
    · simpa using h

/-- C1 amended witness: the concrete position-cap-reached input returns the
minimum (1), not 0, and a zero final amount is exactly the skip signal. -/
theorem C1_amended_witness :
    (calculate_order_size cfgPctCap 100 1000 50).final_amount =
      cfgPctCap.min_order_size_usd ∧
    (calculate_order_size cfgPctCap 100 1000 50).final_amount ≠ 0 :=
  C1_amended_min_pin_overrides_position_skip.1 cfgPctCap 100 1000 50 50 rfl
    (by norm_num [cfgPctCap, cfgPct]) (by norm_num [cfgPctCap, cfgPct])

/-- C8 counterexample: `cfgAdaptiveLowCopy` has adaptive bounds present with
min 5 ≤ max 10 and positive threshold 100, yet the effective percent grows
from 1 to 5 as the notional grows from 100 to 200 — not non-increasing,
because `copy_size` (1) lies below `adaptive_min_percent` and the
above-threshold branch interpolates from `copy_size` towards
`min_percent`. -/
theorem C8_counterexample :
    cfgAdaptiveLowCopy.adaptive_min_percent = some 5 ∧
    cfgAdaptiveLowCopy.adaptive_max_percent = some 10 ∧
    cfgAdaptiveLowCopy.adaptive_threshold = some 100 ∧
    (100 : ℚ) ≤ 200 ∧
    calculate_adaptive_percent cfgAdaptiveLowCopy 100 <
      calculate_adaptive_percent cfgAdaptiveLowCopy 200 := by
  refine ⟨rfl, rfl, rfl, by norm_num, ?_⟩
  norm_num [calculate_adaptive_percent, cfgAdaptiveLowCopy, lerp]

/-- C8 amended: above the threshold the effective percent is monotonically
non-increasing in the notional provided additionally
`adaptive_min_percent ≤ copy_size` (the configuration shape the spec's
interpolation description presumes); and the interpolation factor of `lerp`
is clamped to [0,1], so every `lerp` value lies between its endpoints. -/
theorem C8_amended_adaptive_monotone :
    (∀ (config : CopyStrategyConfig) (mp th n1 n2 : ℚ),
      config.adaptive_min_percent = some mp →
      config.adaptive_threshold = some th →
      0 < th → mp ≤ config.copy_size →
      th ≤ n1 → n1 ≤ n2 →
      calculate_adaptive_percent config n2 ≤
        calculate_adaptive_percent config n1) ∧
    (∀ a b t : ℚ, min a b ≤ lerp a b t ∧ lerp a b t ≤ max a b) := by
  constructor
  · intro config mp th n1 n2 hmp hth hth0 hmpcs h1 h12
    have h2 : th ≤ n2 := le_trans h1 h12
    simp only [calculate_adaptive_percent, hmp, hth, Option.getD_some, lerp]
    rw [if_pos h2, if_pos h1]
    have hdiv : n1 / th ≤ n2 / th := by gcongr
    have e2 : min (n1 / th - 1) 1 ≤ min (n2 / th - 1) 1 :=
      min_le_min (by linarith) le_rfl
    have e3 : max (min (n1 / th - 1) 1) 0 ≤ max (min (n2 / th - 1) 1) 0 :=
      max_le_max e2 le_rfl
    have e4 : min (max (min (n1 / th - 1) 1) 0) 1 ≤
        min (max (min (n2 / th - 1) 1) 0) 1 := min_le_min e3 le_rfl
    nlinarith [e4, hmpcs]
  · intro a b t
    have hc0 : (0 : ℚ) ≤ min (max t 0) 1 := le_min (le_max_right t 0) zero_le_one
    have hc1 : min (max t 0) 1 ≤ 1 := min_le_right _ _
    simp only [lerp]
    constructor
    · rcases le_total a b with h | h
      · rw [min_eq_left h]
        nlinarith [mul_nonneg (sub_nonneg.mpr h) hc0]
      · rw [min_eq_right h]
        nlinarith [mul_nonneg (sub_nonneg.mpr h) (sub_nonneg.mpr hc1)]
    · rcases le_total a b with h | h
      · rw [max_eq_right h]
        nlinarith [mul_nonneg (sub_nonneg.mpr h) (sub_nonneg.mpr hc1)]
      · rw [max_eq_left h]
        nlinarith [mul_nonneg (sub_nonneg.mpr h) hc0]

/-- C8 amended witness: for `cfgAdaptiveStd` (min 5 ≤ copy 10, threshold
100) the effective percent at notional 200 is at most that at 100. -/
theorem C8_amended_witness :
    calculate_adaptive_percent cfgAdaptiveStd 200 ≤
      calculate_adaptive_percent cfgAdaptiveStd 100 :=
  C8_amended_adaptive_monotone.1 cfgAdaptiveStd 5 100 100 200 rfl rfl
    (by norm_num) (by norm_num [cfgAdaptiveStd]) (by norm_num) (by norm_num)

/-- C3: the gapped configuration "0-100:2,200-300:3" is accepted by
`parse_tiered_multipliers` — the validation loop (whose comment promises
"no overlaps and no gaps") only rejects overlaps, so the gap between 100
and 200 passes and the parse returns the two tiers. -/
theorem C3_gap_accepted :
    parse_tiered_multipliers "0-100:2,200-300:3" =
      Except.ok [{ min := 0, max := some 100, multiplier := 2 },
        { min := 200, max := some 300, multiplier := 3 }] := by decide

/-- One BUY-loop iteration preserves the loop invariant. -/
theorem buyStep_preserves_inv (config : CopyStrategyConfig) (target : ℚ)
    (asks : List BookLevel) (s : BuyState) (h : BuyInv config target s) :
    BuyInv config target (buyStateOf (buyStep config asks s)) := by
  obtain ⟨h0, hsum, hall⟩ := h
  simp only [buyStep]
  cases hbest : minByPrice asks with
  | none => exact ⟨h0, hsum, hall⟩
  | some best =>
    dsimp only
    split_ifs with h1 h2 h3
    · exact ⟨h0, hsum, hall⟩
    · exact ⟨h0, hsum, hall⟩
    · exact ⟨h0, hsum, hall⟩
    · have hrem : config.min_order_size_usd ≤ s.remaining := not_lt.mp h1
      have hm3 : min (min s.remaining (best.size * best.price))
          config.max_order_size_usd ≤ s.remaining :=
        le_trans (min_le_left _ _) (min_le_left _ _)
      have hos : max (min (min s.remaining (best.size * best.price))
          config.max_order_size_usd) config.min_order_size_usd ≤ s.remaining :=
        max_le hm3 hrem
      refine ⟨by simpa [buyStateOf] using sub_nonneg.mpr hos, ?_, ?_⟩
      · simp only [buyStateOf, List.sum_append, List.sum_cons, List.sum_nil]
        linarith
      · intro o ho
        simp only [buyStateOf, List.mem_append, List.mem_singleton] at ho
        rcases ho with ho | rfl
        · exact hall o ho
        · exact le_max_right _ _

/-- Running the BUY loop preserves the loop invariant. -/
theorem runBuyLoop_preserves_inv (config : CopyStrategyConfig) (target : ℚ)
    (retry_limit : ℕ) :
    ∀ (books : List (List BookLevel)) (s : BuyState), BuyInv config target s →
      BuyInv config target (runBuyLoop config retry_limit books s) := by
  intro books
  induction books with
  | nil => exact fun s h => h
  | cons asks rest ih =>
    intro s h
    simp only [runBuyLoop]
    split_ifs with hcond
    · cases hstep : buyStep config asks s with
      | next s' =>
        apply ih
        have hp := buyStep_preserves_inv config target asks s h
        rw [hstep] at hp
        exact hp
      | stop s' =>
        have hp := buyStep_preserves_inv config target asks s h
        rw [hstep] at hp
        exact hp
    · exact h

/-- One SELL-loop iteration preserves the loop invariant. -/
theorem sellStep_preserves_inv (target : ℚ) (bids : List BookLevel)
    (s : SellState) (h : SellInv target s) :
    SellInv target (sellStateOf (sellStep bids s)) := by
  obtain ⟨h0, hsum, hall⟩ := h
  simp only [sellStep]
  cases hbest : maxByPrice bids with
  | none => exact ⟨h0, hsum, hall⟩
  | some best =>
    dsimp only
    split_ifs with h1 h2
    · exact ⟨h0, hsum, hall⟩
    · exact ⟨h0, hsum, hall⟩
    · have hfill : min s.remaining best.size ≤ s.remaining := min_le_left _ _
      refine ⟨by simpa [sellStateOf] using sub_nonneg.mpr hfill, ?_, ?_⟩
      · simp only [sellStateOf, List.sum_append, List.sum_cons, List.sum_nil]
        linarith
      · intro f hf
        simp only [sellStateOf, List.mem_append, List.mem_singleton] at hf
        rcases hf with hf | rfl
        · exact hall f hf
        · exact not_lt.mp h2

/-- Running the SELL loop preserves the loop invariant. -/
theorem runSellLoop_preserves_inv (target : ℚ) (retry_limit : ℕ) :
    ∀ (books : List (List BookLevel)) (s : SellState), SellInv target s →
      SellInv target (runSellLoop retry_limit books s) := by
  intro books
  induction books with
  | nil => exact fun s h => h
  | cons bids rest ih =>
    intro s h
    simp only [runSellLoop]
    split_ifs with hcond
    · cases hstep : sellStep bids s with
      | next s' =>
        apply ih
        have hp := sellStep_preserves_inv target bids s h
        rw [hstep] at hp
        exact hp
      | stop s' =>
        have hp := sellStep_preserves_inv target bids s h
        rw [hstep] at hp
        exact hp
    · exact h

/-- One MERGE-loop iteration preserves the loop invariant. -/
theorem mergeStep_preserves_inv (target : ℚ) (bids : List BookLevel)
    (s : SellState) (h : SellInv target s) :
    SellInv target (sellStateOf (mergeStep bids s)) := by
  obtain ⟨h0, hsum, hall⟩ := h
  simp only [mergeStep]
  cases hbest : maxByPrice bids with
  | none => exact ⟨h0, hsum, hall⟩
  | some best =>
    dsimp only
    split_ifs with h2
    · exact ⟨h0, hsum, hall⟩
    · have hfill : min s.remaining best.size ≤ s.remaining := min_le_left _ _
      refine ⟨by simpa [sellStateOf] using sub_nonneg.mpr hfill, ?_, ?_⟩
      · simp only [sellStateOf, List.sum_append, List.sum_cons, List.sum_nil]
        linarith
      · intro f hf
        simp only [sellStateOf, List.mem_append, List.mem_singleton] at hf
        rcases hf with hf | rfl
        · exact hall f hf
        · exact not_lt.mp h2

/-- Running the MERGE loop preserves the loop invariant. -/
theorem runMergeLoop_preserves_inv (target : ℚ) (retry_limit : ℕ) :
    ∀ (books : List (List BookLevel)) (s : SellState), SellInv target s →
      SellInv target (runMergeLoop retry_limit books s) := by
  intro books
  induction books with
  | nil => exact fun s h => h
  | cons bids rest ih =>
    intro s h
    simp only [runMergeLoop]
    split_ifs with hcond
    · cases hstep : mergeStep bids s with
      | next s' =>
        apply ih
        have hp := mergeStep_preserves_inv target bids s h
        rw [hstep] at hp
        exact hp
      | stop s' =>
        have hp := mergeStep_preserves_inv target bids s h
        rw [hstep] at hp
        exact hp
    · exact h

/-- C5: for every invocation of the order-execution loops with a positive
target (notional for BUY, tokens for SELL/MERGE) and any sequence of
order-book snapshots, no submitted order is sized below the respective
minimum tradable size (`min_order_size_usd` for BUY,
`MIN_ORDER_SIZE_TOKENS` for SELL/MERGE), and the accumulated partial fills
never exceed the requested target. -/
theorem C5_loop_never_below_min_never_exceeds_target :
    (∀ (config : CopyStrategyConfig) (retry_limit : ℕ)
      (books : List (List BookLevel)) (target balance : ℚ), 0 < target →
      (∀ o ∈ (runBuyLoop config retry_limit books
          ⟨target, balance, 0, [], 0⟩).orders,
        config.min_order_size_usd ≤ o) ∧
      (runBuyLoop config retry_limit books
        ⟨target, balance, 0, [], 0⟩).orders.sum ≤ target) ∧
    (∀ (retry_limit : ℕ) (books : List (List BookLevel)) (target : ℚ),
      0 < target →
      (∀ f ∈ (runSellLoop retry_limit books ⟨target, 0, []⟩).fills,
        MIN_ORDER_SIZE_TOKENS ≤ f) ∧
      (runSellLoop retry_limit books ⟨target, 0, []⟩).fills.sum ≤ target) ∧
    (∀ (retry_limit : ℕ) (books : List (List BookLevel)) (target : ℚ),
      0 < target →
      (∀ f ∈ (runMergeLoop retry_limit books ⟨target, 0, []⟩).fills,
        MIN_ORDER_SIZE_TOKENS ≤ f) ∧
      (runMergeLoop retry_limit books ⟨target, 0, []⟩).fills.sum ≤ target) := by
  refine ⟨?_, ?_, ?_⟩
  · intro config retry_limit books target balance htarget
    have hinit : BuyInv config target ⟨target, balance, 0, [], 0⟩ :=
      ⟨le_of_lt htarget, by simp, by simp⟩
    obtain ⟨h0, hsum, hall⟩ :=
      runBuyLoop_preserves_inv config target retry_limit books _ hinit
    exact ⟨hall, by linarith⟩
  · intro retry_limit books target htarget
    have hinit : SellInv target ⟨target, 0, []⟩ :=
      ⟨le_of_lt htarget, by simp, by simp⟩
    obtain ⟨h0, hsum, hall⟩ :=
      runSellLoop_preserves_inv target retry_limit books _ hinit
    exact ⟨hall, by linarith⟩
  · intro retry_limit books target htarget
    have hinit : SellInv target ⟨target, 0, []⟩ :=
      ⟨le_of_lt htarget, by simp, by simp⟩
    obtain ⟨h0, hsum, hall⟩ :=
      runMergeLoop_preserves_inv target retry_limit books _ hinit
    exact ⟨hall, by linarith⟩

/-- C5 witness: the loop invariants at a concrete book (one level, price
1/2, size 10) and concrete positive targets. -/
theorem C5_witness :
    ((∀ o ∈ (runBuyLoop cfgPct 3 [[{ price := 1/2, size := 10 }]]
        ⟨4, 100, 0, [], 0⟩).orders, cfgPct.min_order_size_usd ≤ o) ∧
      (runBuyLoop cfgPct 3 [[{ price := 1/2, size := 10 }]]
        ⟨4, 100, 0, [], 0⟩).orders.sum ≤ 4) ∧
    ((∀ f ∈ (runSellLoop 3 [[{ price := 1/2, size := 10 }]]
        ⟨10, 0, []⟩).fills, MIN_ORDER_SIZE_TOKENS ≤ f) ∧
      (runSellLoop 3 [[{ price := 1/2, size := 10 }]]
        ⟨10, 0, []⟩).fills.sum ≤ 10) ∧
    ((∀ f ∈ (runMergeLoop 3 [[{ price := 1/2, size := 10 }]]
        ⟨10, 0, []⟩).fills, MIN_ORDER_SIZE_TOKENS ≤ f) ∧
      (runMergeLoop 3 [[{ price := 1/2, size := 10 }]]
        ⟨10, 0, []⟩).fills.sum ≤ 10) :=
  ⟨C5_loop_never_below_min_never_exceeds_target.1 cfgPct 3 _ 4 100 (by norm_num),
   C5_loop_never_below_min_never_exceeds_target.2.1 3 _ 10 (by norm_num),
   C5_loop_never_below_min_never_exceeds_target.2.2 3 _ 10 (by norm_num)⟩

/-- C2 counterexample: in the BUY loop, with remaining 10 USD and only
0.50 USD of notional at the best ask, `min remaining available = 1/2` is
below the 1 USD minimum, yet the loop does not stop — it submits an order
of 1 USD (the minimum), bumped up by the `.max(min_order_size_usd)` in
`execute_buy_strategy`. -/
theorem C2_counterexample :
    min (10 : ℚ) (1 * (1 / 2)) < cfgPct.min_order_size_usd ∧
    buyStep cfgPct [{ price := 1/2, size := 1 }] ⟨10, 100, 0, [], 0⟩ =
      .next ⟨9, 99, 0, [1], 2⟩ := by
  constructor
  · norm_num [cfgPct]
  · norm_num [buyStep, minByPrice, cfgPct]

/-- C2 amended: the SELL and MERGE loops submit exactly
`min remaining best_bid_size` and stop without submitting when that is
below `MIN_ORDER_SIZE_TOKENS`; the BUY loop instead stops when the
remaining notional (not the computed fill) is below `min_order_size_usd`,
and otherwise submits `max (min (min remaining (best_size*best_price))
max_order_size_usd) min_order_size_usd` — capped by the configured maximum
and raised to the configured minimum rather than stopped when the available
notional is below it. -/
theorem C2_amended_fill_rules :
    (∀ (bids : List BookLevel) (s : SellState) (best : BookLevel),
      maxByPrice bids = some best →
      MIN_ORDER_SIZE_TOKENS ≤ s.remaining →
      min s.remaining best.size < MIN_ORDER_SIZE_TOKENS →
      sellStep bids s = .stop s) ∧
    (∀ (bids : List BookLevel) (s : SellState) (best : BookLevel),
      maxByPrice bids = some best →
      MIN_ORDER_SIZE_TOKENS ≤ s.remaining →
      MIN_ORDER_SIZE_TOKENS ≤ min s.remaining best.size →
      sellFillsOf (sellStep bids s) = s.fills ++ [min s.remaining best.size]) ∧
    (∀ (bids : List BookLevel) (s : SellState) (best : BookLevel),
      maxByPrice bids = some best →
      min s.remaining best.size < MIN_ORDER_SIZE_TOKENS →
      mergeStep bids s = .stop s) ∧
    (∀ (bids : List BookLevel) (s : SellState) (best : BookLevel),
      maxByPrice bids = some best →
      MIN_ORDER_SIZE_TOKENS ≤ min s.remaining best.size →
      sellFillsOf (mergeStep bids s) = s.fills ++ [min s.remaining best.size]) ∧
    (∀ (config : CopyStrategyConfig) (asks : List BookLevel) (s : BuyState)
      (best : BookLevel),
      minByPrice asks = some best →
      config.min_order_size_usd ≤ s.remaining →
      max (min (min s.remaining (best.size * best.price))
        config.max_order_size_usd) config.min_order_size_usd ≤
        s.available_balance →
      buyOrdersOf (buyStep config asks s) =
        s.orders ++ [max (min (min s.remaining (best.size * best.price))
          config.max_order_size_usd) config.min_order_size_usd]) := by
  refine ⟨?_, ?_, ?_, ?_, ?_⟩
  · intro bids s best hbest hr hlt
    simp only [sellStep, hbest]
    rw [if_neg (not_lt.mpr hr), if_pos hlt]
  · intro bids s best hbest hr hfill
    simp only [sellStep, hbest]
    rw [if_neg (not_lt.mpr hr), if_neg (not_lt.mpr hfill)]
    rfl
  · intro bids s best hbest hlt
    simp only [mergeStep, hbest]
    rw [if_pos hlt]
  · intro bids s best hbest hfill
    simp only [mergeStep, hbest]
    rw [if_neg (not_lt.mpr hfill)]
    rfl
  · intro config asks s best hbest hr hbal
    simp only [buyStep, hbest]
    rw [if_neg (not_lt.mpr hr), if_neg (not_lt.mpr (le_max_right _ _)),
      if_neg (not_lt.mpr hbal)]
    rfl

/-- C2 amended witness: a SELL iteration with half a token at the best bid
stops without submitting, and the BUY iteration of the counterexample
submits the clamped-and-raised order size. -/
theorem C2_amended_witness :
    sellStep [{ price := 1/2, size := 1/2 }] ⟨10, 0, []⟩ =
      .stop ⟨10, 0, []⟩ ∧
    buyOrdersOf (buyStep cfgPct [{ price := 1/2, size := 1 }]
        ⟨10, 100, 0, [], 0⟩) =
      [] ++ [max (min (min 10 ((1 : ℚ) * (1 / 2)))
        cfgPct.max_order_size_usd) cfgPct.min_order_size_usd] :=
  ⟨C2_amended_fill_rules.1 _ _ { price := 1/2, size := 1/2 } rfl
      (by norm_num [MIN_ORDER_SIZE_TOKENS])
      (by norm_num [MIN_ORDER_SIZE_TOKENS]),
   C2_amended_fill_rules.2.2.2.2 cfgPct _ _ { price := 1/2, size := 1 } rfl
      (by norm_num [cfgPct]) (by norm_num [cfgPct])⟩

/-- C4: for a SELL of a tracked trader who retains a residual position,
whenever the sell path produces a target, that target is
`own_size * (traded / (residual + traded))` times the configured multiplier
(selected by the tracked notional), capped at the own held size. -/
theorem C4_sell_proportional (config : CopyStrategyConfig)
    (my_pos user_pos : UserPosition) (trade : UserActivity)
    (hres : 0 < user_pos.size)
    (hmin : ¬ (my_pos.size * (trade.size / (user_pos.size + trade.size)) *
      get_trade_multiplier config trade.usdc_size < MIN_ORDER_SIZE_TOKENS)) :
    sellTarget config (some my_pos) (some user_pos) trade =
      some (min (my_pos.size * (trade.size / (user_pos.size + trade.size)) *
        get_trade_multiplier config trade.usdc_size) my_pos.size) := by
  simp only [sellTarget]
  rw [if_neg hmin]
  split_ifs with h
  · rw [min_eq_right (le_of_lt h)]
  · rw [min_eq_left (not_lt.mp h)]

/-- C4 witness: residual 60, traded 40, own position 20, multiplier 1 —
the sell target is 8 tokens. -/
theorem C4_witness :
    sellTarget cfgPct (some { size := 20, avg_price := 1/2 })
      (some { size := 60, avg_price := 1/2 })
      { side := "SELL", asset := "a", size := 40, usdc_size := 40 } =
      some 8 := by
  have h := C4_sell_proportional cfgPct
    { size := 20, avg_price := 1/2 } { size := 60, avg_price := 1/2 }
    { side := "SELL", asset := "a", size := 40, usdc_size := 40 }
    (by norm_num) (by norm_num [get_trade_multiplier, cfgPct, MIN_ORDER_SIZE_TOKENS])
  rw [h]
  norm_num [get_trade_multiplier, cfgPct]

/-- C7 counterexample: a SELL event is dispatched by
`execute_trade_directly` with the `"sell"` condition, never `"merge"` —
the classified action for a SELL with no residual position is not MERGE. -/
theorem C7_counterexample :
    postOrderCondition
      { side := "SELL", asset := "a", size := 40, usdc_size := 40 } =
      "sell" ∧ ("sell" : String) ≠ "merge" := by
  exact ⟨rfl, by decide⟩

/-- C7 amended: a non-BUY trade is always dispatched as the SELL action
(the `"merge"` condition is never produced by the executor); when the
tracked trader holds no residual position, the SELL path's target is 100%
of the operator's held size with no multiplier applied — the same target
the (undispatched) MERGE strategy would compute. -/
theorem C7_amended_sell_path_handles_full_exit (config : CopyStrategyConfig)
    (trade : UserActivity) (p : UserPosition)
    (hside : trade.side ≠ "BUY")
    (hsz : MIN_ORDER_SIZE_TOKENS ≤ p.size)
    (hasset : trade.asset ≠ "") :
    postOrderCondition trade = "sell" ∧
    sellTarget config (some p) none trade = some p.size ∧
    mergeTarget trade (some p) = some p.size := by
  refine ⟨?_, ?_, ?_⟩
  · simp only [postOrderCondition]
    rw [if_neg hside]
  · simp only [sellTarget]
    rw [if_neg (not_lt.mpr hsz), if_neg (lt_irrefl p.size)]
  · simp only [mergeTarget]
    rw [if_neg hasset, if_neg (not_lt.mpr hsz)]

/-- C7 amended witness: a concrete full-exit SELL with an own position of
20 tokens is dispatched as SELL and targets all 20 tokens on both paths. -/
theorem C7_amended_witness :
    postOrderCondition
      { side := "SELL", asset := "a", size := 40, usdc_size := 40 } =
      "sell" ∧
    sellTarget cfgPct (some { size := 20, avg_price := 1/2 }) none
      { side := "SELL", asset := "a", size := 40, usdc_size := 40 } =
      some 20 ∧
    mergeTarget { side := "SELL", asset := "a", size := 40, usdc_size := 40 }
      (some { size := 20, avg_price := 1/2 }) = some 20 :=
  C7_amended_sell_path_handles_full_exit cfgPct
    { side := "SELL", asset := "a", size := 40, usdc_size := 40 }
    { size := 20, avg_price := 1/2 }
    (by decide) (by norm_num [MIN_ORDER_SIZE_TOKENS]) (by decide)

/-- C6: one turn of the reconnect loop — success resets the counter to 0;
failure number n (below the maximum) waits `RECONNECT_DELAY_SECS * min n 5`
seconds, a delay that is non-decreasing in n and capped at 25 seconds;
reaching `MAX_RECONNECT_ATTEMPTS` consecutive failures returns the fatal
error instead of retrying. -/
theorem C6_reconnect_backoff :
    (∀ n : ℕ, reconnectStep n true = .connected 0) ∧
    (∀ n : ℕ, n + 1 < MAX_RECONNECT_ATTEMPTS →
      reconnectStep n false =
        .waitRetry (n + 1) (RECONNECT_DELAY_SECS * min (n + 1) 5)) ∧
    (∀ n : ℕ, MAX_RECONNECT_ATTEMPTS ≤ n + 1 →
      reconnectStep n false = .fatal) ∧
    (∀ m n : ℕ, m ≤ n →
      RECONNECT_DELAY_SECS * min m 5 ≤ RECONNECT_DELAY_SECS * min n 5) ∧
    (∀ n : ℕ, RECONNECT_DELAY_SECS * min n 5 ≤ RECONNECT_DELAY_SECS * 5) := by
  refine ⟨fun n => rfl, ?_, ?_, ?_, ?_⟩
  · intro n h
    simp only [reconnectStep, Bool.false_eq_true, if_false]
    rw [if_neg (not_le.mpr h)]
  · intro n h
    simp only [reconnectStep, Bool.false_eq_true, if_false]
    rw [if_pos h]
  · intro m n h
    have : min m 5 ≤ min n 5 := min_le_min h le_rfl
    exact Nat.mul_le_mul_left _ this
  · intro n
    exact Nat.mul_le_mul_left _ (min_le_right _ _)

/-- C6 witness: the third consecutive failure waits 5 * min 4 5 seconds and
retries as attempt 4; a success resets the counter. -/
theorem C6_witness :
    reconnectStep 3 false =
      .waitRetry 4 (RECONNECT_DELAY_SECS * min 4 5) ∧
    reconnectStep 7 true = .connected 0 :=
  ⟨C6_reconnect_backoff.2.1 3 (by norm_num [MAX_RECONNECT_ATTEMPTS]),
   C6_reconnect_backoff.1 7⟩

/-- If the fetch loop falls off the end of its attempt list, every attempt
it consumed satisfied `attempt < retries`. -/
theorem runFetchAttempts_none_all_lt (retries : ℕ)
    (responses : ℕ → HttpAttemptOutcome) :
    ∀ l : List ℕ, runFetchAttempts retries responses l = none →
      ∀ a ∈ l, a < retries := by
  intro l
  induction l with
  | nil => intro _ a ha; exact absurd ha (List.not_mem_nil a)
  | cons attempt rest ih =>
    intro hnone a ha
    simp only [runFetchAttempts] at hnone
    cases hresp : responses attempt with
    | success => rw [hresp] at hnone; exact absurd hnone (by simp)
    | successBadJson => rw [hresp] at hnone; exact absurd hnone (by simp)
    | otherError => rw [hresp] at hnone; exact absurd hnone (by simp)
    | httpError =>
      rw [hresp] at hnone
      dsimp only at hnone
      split_ifs at hnone with hlt
      rcases List.mem_cons.mp ha with rfl | hmem
      · exact hlt
      · exact ih hnone a hmem
    | networkError =>
      rw [hresp] at hnone
      dsimp only at hnone
      split_ifs at hnone with hlt
      rcases List.mem_cons.mp ha with rfl | hmem
      · exact hlt
      · exact ih hnone a hmem

/-- C10: whenever the startup validation of `NETWORK_RETRY_LIMIT` passes
(1 ≤ retries ≤ 10), `fetch_data` returns from within its retry loop on
every execution path — the `unreachable!()` after the loop (modelled as
`none`) is never reached. -/
theorem C10_unreachable_never_reached (retries : ℕ)
    (responses : ℕ → HttpAttemptOutcome)
    (h : validNetworkRetryLimit retries = true) :
    fetch_data retries responses ≠ none := by
  intro hnone
  have h1 : 1 ≤ retries := by
    simp only [validNetworkRetryLimit, Bool.and_eq_true, decide_eq_true_eq] at h
    exact h.1
  have hmem : retries ∈ List.range' 1 retries := by
    have := List.mem_range'_1 (m := retries) (s := 1) (n := retries)
    rw [this]
    omega
  have := runFetchAttempts_none_all_lt retries responses _ hnone retries hmem
  omega

/-- C10 witness: three attempts that all hit network errors still return
(with an error), not the unreachable branch. -/
theorem C10_witness :
    fetch_data 3 (fun _ => HttpAttemptOutcome.networkError) ≠ none :=
  C10_unreachable_never_reached 3 _ (by decide)
